import Mathlib

/-!
Verification development for the modbus-reader package.

Shallow embedding of `src/modbusreader/structutils.py` and
`src/modbusreader/__init__.py`.  Python machine floats are represented by
exact rationals (every finite IEEE-754 value is rational); transcendental
math-library results, whose floating-point values are out of scope, are
kept abstract through a semantic parameter `MathSem`.  Python exceptions
are modelled with `Except PyError`.
-/

/-- Python exception classes observed by the code under verification. -/
inductive PyError
  | valueError (msg : String)
  | indexError
  | attributeError
  | ioError (msg : String)
  | nameError (n : String)
  | typeError
  | zeroDivisionError
  | structError
deriving DecidableEq, Repr

/-- Result of Python `struct.unpack` for one field: int formats give `int`,
`f` gives a float (held as its exact rational value), `?` gives `bool`. -/
inductive PyValue
  | int (z : ℤ)
  | float (q : ℚ)
  | bool (b : Bool)
deriving DecidableEq, Repr

/-- Python `int(x)` on a float: truncation toward zero. -/
def pyTrunc (q : ℚ) : ℤ := if 0 ≤ q then ⌊q⌋ else ⌈q⌉

/-- Round-half-to-even to an integer, the tie rule of Python `round`. -/
def halfEvenZ (q : ℚ) : ℤ :=
  if q - ⌊q⌋ < 1/2 then ⌊q⌋
  else if (1:ℚ)/2 < q - ⌊q⌋ then ⌊q⌋ + 1
  else if ⌊q⌋ % 2 = 0 then ⌊q⌋ else ⌊q⌋ + 1

/-- Python `round(x, ndigits)` (half-even), on the exact-rational stand-in. -/
def pyRound (q : ℚ) (ndigits : ℤ) : ℚ :=
  (halfEvenZ (q * 10 ^ ndigits) : ℚ) / 10 ^ ndigits

/-- Exact rational value of an IEEE-754 single-precision bit pattern.
Infinities and NaNs (exponent 255) do not occur in the claims and are
mapped to 0. -/
def ieee32ToRat (u : ℕ) : ℚ :=
  let sign : ℕ := u / 2 ^ 31
  let ex : ℕ := u / 2 ^ 23 % 2 ^ 8
  let frac : ℕ := u % 2 ^ 23
  let mag : ℚ :=
    if ex = 0 then (frac : ℚ) / 2 ^ 23 * (2 : ℚ) ^ (-(126 : ℤ))
    else if ex = 255 then 0
    else (1 + (frac : ℚ) / 2 ^ 23) * (2 : ℚ) ^ ((ex : ℤ) - 127)
  if sign % 2 = 1 then -mag else mag

/-- Numeric coercion performed by Python arithmetic (`bool` is an `int`
subclass: `True == 1`, `False == 0`). -/
def pyToRat : PyValue → ℚ
  | .int z => (z : ℚ)
  | .float q => q
  | .bool b => if b then 1 else 0

/-! ## structutils.py -/

/-- `_data_types` (structutils.py lines 9-16).  Note `int32` is mapped to
the 2-byte struct format `H`, exactly as in the source. -/
def _data_types : List (String × String) :=
  [("int16", "h"), ("int32", "H"), ("uint32", "I"),
   ("float", "f"), ("byte", "x"), ("boolean", "?")]

/-- `get_format` (structutils.py lines 19-31): dictionary lookup, with the
`KeyError` turned into `ValueError("format for given data type does not exist")`. -/
def get_format (data_type : String) : Except PyError String :=
  match _data_types.find? (fun p => p.1 = data_type) with
  | some p => .ok p.2
  | none => .error (.valueError "format for given data type does not exist")

/-- Size in bytes of one struct format character, the behaviour of Python
`struct.calcsize` on the formats appearing in `_data_types`. -/
def structCalcsize (fmt : String) : ℕ :=
  match fmt with
  | "h" => 2
  | "H" => 2
  | "I" => 4
  | "f" => 4
  | "x" => 1
  | "?" => 1
  | _ => 0

/-- `calcsize` (structutils.py lines 34-43). -/
def calcsize (data_type : String) : Except PyError ℕ :=
  (get_format data_type).map structCalcsize

/-- `int16list_to_bytes` (structutils.py lines 46-57): big-endian
`struct.pack(">H", v)` of each 16-bit word; out-of-range words raise
`struct.error`. -/
def int16list_to_bytes : List ℕ → Except PyError (List ℕ)
  | [] => .ok []
  | w :: ws =>
    if w < 65536 then
      match int16list_to_bytes ws with
      | .ok rest => .ok ([w / 256, w % 256] ++ rest)
      | .error e => .error e
    else .error .structError

/-- Big-endian natural number denoted by a byte list. -/
def beNat (bs : List ℕ) : ℕ := bs.foldl (fun acc b => acc * 256 + b) 0

/-- Behaviour of big-endian `struct.unpack(">" + fmt, bs)` on the format
characters of `_data_types`, as the list of produced fields.  The pad
format `x` consumes its byte and produces no field. -/
def structUnpackBE (fmt : String) (bs : List ℕ) : List PyValue :=
  match fmt with
  | "h" => [.int (if beNat bs < 32768 then (beNat bs : ℤ) else (beNat bs : ℤ) - 65536)]
  | "H" => [.int (beNat bs : ℤ)]
  | "I" => [.int (beNat bs : ℤ)]
  | "f" => [.float (ieee32ToRat (beNat bs))]
  | "x" => []
  | "?" => [.bool (bs.headD 0 ≠ 0)]
  | _ => []

/-- `bytes_to_datatype` (structutils.py lines 61-77): length check raising
`ValueError`, then `struct.unpack(...)[0]`, where indexing an empty field
tuple raises `IndexError`. -/
def bytes_to_datatype (byte_list : List ℕ) (data_type : String) : Except PyError PyValue :=
  match calcsize data_type with
  | .error e => .error e
  | .ok size =>
    if size ≠ byte_list.length then
      .error (.valueError ("Given data type (" ++ data_type ++
        ") requires different length of bytes." ++ " Given: " ++
        toString byte_list.length ++ ", required: " ++ toString size))
    else
      match get_format data_type with
      | .error e => .error e
      | .ok fmt =>
        match structUnpackBE fmt byte_list with
        | [] => .error .indexError
        | v :: _ => .ok v

/-- True exactly when the outcome is a Python `ValueError`. -/
def isValueErr {α : Type} : Except PyError α → Bool
  | .error (.valueError _) => true
  | _ => false

/-- True exactly when the outcome is a Python `IOError`. -/
def isIOErr {α : Type} : Except PyError α → Bool
  | .error (.ioError _) => true
  | _ => false

/-! ## Sensor definitions and grouping (`__init__.py` lines 69-161) -/

/-- A discrete sensor definition: id and bit address. -/
structure DSensor where
  id : String
  address : ℕ
deriving DecidableEq, Repr

/-- Arithmetic binary operators of the correction-formula fragment. -/
inductive BinOp
  | add | sub | mul | div
deriving DecidableEq, Repr

/-- Parsed form of a Python expression string as passed to `eval` in
`read_registers` (`error_correction.equation`), restricted to the
constructs relevant to the claims: literals, name lookup, attribute
access, calls with one or two arguments, and arithmetic. -/
inductive Expr
  | num (q : ℚ)
  | name (n : String)
  | attr (e : Expr) (field : String)
  | call1 (f : Expr) (a : Expr)
  | call2 (f : Expr) (a b : Expr)
  | binop (op : BinOp) (a b : Expr)
deriving DecidableEq, Repr

/-- A register sensor definition dictionary.  `count` is the field that
`group_modbus_device_definition` writes into the dictionary (line 132);
it is absent from the raw JSON, so its incoming value is irrelevant and
is always overwritten before being read. -/
structure RegSensor where
  id : String
  address : ℕ
  type : String
  factor : ℚ
  error_correction : Option Expr := none
  count : ℕ := 0
deriving DecidableEq, Repr

/-- A grouped range of discrete sensors (`__init__.py` lines 113-118). -/
structure DGroup where
  start_address : ℕ
  count : ℕ
  sensors : List DSensor
deriving DecidableEq, Repr

/-- A grouped range of register sensors (`__init__.py` lines 150-155). -/
structure RGroup where
  start_address : ℕ
  count : ℕ
  sensors : List RegSensor
deriving DecidableEq, Repr

/-- Stable insertion step for `sortByAddr`. -/
def insertByAddr {α : Type} (addr : α → ℕ) (x : α) : List α → List α
  | [] => [x]
  | y :: ys => if addr x ≤ addr y then x :: y :: ys else y :: insertByAddr addr x ys

/-- Model of Python `sorted(items, key=address)` (`__init__.py` line 88):
a stable ascending sort by address.  Any stable sort computes the same
list, so insertion sort is a faithful model of Timsort here. -/
def sortByAddr {α : Type} (addr : α → ℕ) (l : List α) : List α :=
  l.foldr (insertByAddr addr) []

/-- The scan of the `discrete` branch (`__init__.py` lines 90-121), with
the loop state `(start_address, last_address, sensors)` made explicit.
The first component of `step` is the updated `sensors` dictionary, the
second the updated `last_address`. -/
def groupDiscLoop : List DSensor → Option ℕ → Option ℕ → List DSensor → List DGroup
  | [], _, _, _ => []
  | s :: rest, start_address, last_address, sensors =>
    let start := start_address.getD s.address
    let step : List DSensor × Option ℕ :=
      match last_address with
      | none => (sensors ++ [s], some s.address)
      | some la =>
        if la + 1 = s.address then (sensors ++ [s], some s.address)
        else (sensors, some la)
    match rest with
    | [] => [⟨start, s.address - start + 1, step.1⟩]
    | t :: rest2 =>
      if s.address + 1 ≠ t.address then
        ⟨start, s.address - start + 1, step.1⟩ :: groupDiscLoop (t :: rest2) none none []
      else
        groupDiscLoop (t :: rest2) (some start) step.2 step.1

/-- The scan of the `registers` branch (`__init__.py` lines 123-159), with
the loop state `(start_address, (last_address, last_count), sensors)`
made explicit.  Sensors arrive already annotated with their `count`. -/
def groupRegLoop : List RegSensor → Option ℕ → Option (ℕ × ℕ) → List RegSensor → List RGroup
  | [], _, _, _ => []
  | s :: rest, start_address, last, sensors =>
    let start := start_address.getD s.address
    let step : List RegSensor × Option (ℕ × ℕ) :=
      match last with
      | none => (sensors ++ [s], some (s.address, s.count))
      | some (la, lc) =>
        if la + lc = s.address then (sensors ++ [s], some (s.address, s.count))
        else (sensors, some (la, lc))
    match rest with
    | [] => [⟨start, s.address + s.count - start, step.1⟩]
    | t :: rest2 =>
      if s.address + s.count ≠ t.address then
        ⟨start, s.address + s.count - start, step.1⟩ :: groupRegLoop (t :: rest2) none none []
      else
        groupRegLoop (t :: rest2) (some start) step.2 step.1

/-- The `count` annotation of one register sensor (`__init__.py` line 132):
`int(structutils.calcsize(type) / 2)` 16-bit words. -/
def annotateSensor (s : RegSensor) : Except PyError RegSensor :=
  match calcsize s.type with
  | .ok sz => .ok { s with count := sz / 2 }
  | .error e => .error e

/-- Width annotation of a whole (sorted) category, performed inline by the
source loop before each sensor is used. -/
def annotateList : List RegSensor → Except PyError (List RegSensor)
  | [] => .ok []
  | s :: rest =>
    match annotateSensor s with
    | .error e => .error e
    | .ok s2 =>
      match annotateList rest with
      | .error e => .error e
      | .ok rest2 => .ok (s2 :: rest2)

/-- Grouping of one discrete category: sort by address, then scan. -/
def groupDiscreteCategory (config : List DSensor) : List DGroup :=
  groupDiscLoop (sortByAddr (fun s => s.address) config) none none []

/-- Grouping of one register category: sort by address, annotate widths,
then scan.  An unknown data type propagates the `ValueError` from
`calcsize`, as in the source. -/
def groupRegisterCategory (config : List RegSensor) : Except PyError (List RGroup) :=
  match annotateList (sortByAddr (fun s => s.address) config) with
  | .error e => .error e
  | .ok l => .ok (groupRegLoop l none none [])

/-- A validated modbus device definition: the four category mappings. -/
structure DeviceDefinition where
  discrete_inputs : List DSensor
  discrete_outputs : List DSensor
  input_registers : List RegSensor
  output_registers : List RegSensor

/-- The grouped device definition stored on the reader. -/
structure GroupedDefinition where
  discrete_inputs : List DGroup
  discrete_outputs : List DGroup
  input_registers : List RGroup
  output_registers : List RGroup

/-- `ModbusReader.group_modbus_device_definition` (`__init__.py` lines
69-161): the four categories are processed in their fixed order, a
`calcsize` failure in a register category aborting the whole call. -/
def group_modbus_device_definition (d : DeviceDefinition) : Except PyError GroupedDefinition :=
  match groupRegisterCategory d.input_registers with
  | .error e => .error e
  | .ok ir =>
    match groupRegisterCategory d.output_registers with
    | .error e => .error e
    | .ok outr =>
      .ok ⟨groupDiscreteCategory d.discrete_inputs, groupDiscreteCategory d.discrete_outputs, ir, outr⟩

/-! Specification-side grouping (modelled from the spec's words, for the
refinement claims): the maximal contiguous runs of occupied addresses and
the range descriptor of one run. -/

/-- Modelled from the spec: the maximal contiguous runs of a sorted
discrete sensor list; a run continues while the next address immediately
follows the previous one. -/
def specRunsD : List DSensor → List (List DSensor)
  | [] => []
  | [s] => [[s]]
  | s :: t :: rest =>
    if s.address + 1 = t.address then
      match specRunsD (t :: rest) with
      | r :: rs => (s :: r) :: rs
      | [] => [[s]]
    else [s] :: specRunsD (t :: rest)

/-- Modelled from the spec: the maximal contiguous runs of a sorted
register sensor list; a run continues while the next address equals the
previous sensor's address plus its occupied width. -/
def specRunsR : List RegSensor → List (List RegSensor)
  | [] => []
  | [s] => [[s]]
  | s :: t :: rest =>
    if s.address + s.count = t.address then
      match specRunsR (t :: rest) with
      | r :: rs => (s :: r) :: rs
      | [] => [[s]]
    else [s] :: specRunsR (t :: rest)

/-- End address (exclusive, in words) of the last sensor of a run. -/
def specRunEndR (r : List RegSensor) : ℕ :=
  match r.getLast? with
  | some e => e.address + e.count
  | none => 0

/-- Last occupied address of a discrete run. -/
def specRunEndD (r : List DSensor) : ℕ :=
  match r.getLast? with
  | some e => e.address
  | none => 0

/-- Modelled from the spec: the range descriptor of one register run --
it starts at the first sensor's address and its count spans to the end of
the last sensor's occupied width. -/
def specGroupR : List RegSensor → RGroup
  | [] => ⟨0, 0, []⟩
  | s :: r => ⟨s.address, specRunEndR (s :: r) - s.address, s :: r⟩

/-- Modelled from the spec: the range descriptor of one discrete run. -/
def specGroupD : List DSensor → DGroup
  | [] => ⟨0, 0, []⟩
  | s :: r => ⟨s.address, specRunEndD (s :: r) - s.address + 1, s :: r⟩

/-! ## The `eval`-based correction formula evaluator (`__init__.py` lines 7-26, 249-257)

The source evaluates `error_correction.equation` with
`eval(equation, {"__builtins__": None}, _safe_math_functions)`.  This
section embeds CPython's evaluation of the expression fragment relevant
to the claims.  Attribute access is modelled only on the object graph
needed here (a float literal's `__class__` is the `float` class); CPython
resolves strictly more attributes, so every escape exhibited in this
under-approximation exists in the real interpreter as well. -/

/-- Runtime objects of the evaluator fragment: numbers, the whitelisted
math-function objects, class objects, `None` (the dead `math` entry of
`_safe_math_functions`), and the 2-tuples returned by `modf`/`frexp`
(component values are unspecified stand-ins). -/
inductive PyObj
  | num (q : ℚ)
  | fn (name : String)
  | cls (name : String)
  | pyNone
  | tup (a b : ℚ)
deriving DecidableEq, Repr

/-- Interpretation of the transcendental math functions, whose
floating-point values are out of scope: any assignment of rational
results to 1- and 2-argument functions. -/
structure MathSem where
  f1 : String → ℚ → ℚ
  f2 : String → ℚ → ℚ → ℚ

/-- A default interpretation, used only to instantiate witnesses; every
theorem quantifying over `MathSem` is independent of it. -/
def mathSem0 : MathSem := ⟨fun _ _ => 0, fun _ _ _ => 0⟩

/-- Float-64 value of `math.pi` (exact rational). -/
def piFloat : ℚ := 884279719003555 / 281474976710656

/-- Float-64 value of `math.e` (exact rational). -/
def eFloat : ℚ := 6121026514868073 / 2251799813685248

/-- `_safe_math_functions` (`__init__.py` lines 21-26), in source order:
the key `'math'` maps to `None` (only the individual functions were
imported, so `locals().get('math')` is `None`), `'e'` and `'pi'` are
float constants, and `'abs'` is added last. -/
def safeMathEnv : List (String × PyObj) :=
  [("math", .pyNone), ("acos", .fn "acos"), ("asin", .fn "asin"),
   ("atan", .fn "atan"), ("atan2", .fn "atan2"), ("ceil", .fn "ceil"),
   ("cos", .fn "cos"), ("cosh", .fn "cosh"), ("degrees", .fn "degrees"),
   ("e", .num eFloat), ("exp", .fn "exp"), ("fabs", .fn "fabs"),
   ("floor", .fn "floor"), ("fmod", .fn "fmod"), ("frexp", .fn "frexp"),
   ("hypot", .fn "hypot"), ("ldexp", .fn "ldexp"), ("log", .fn "log"),
   ("log10", .fn "log10"), ("modf", .fn "modf"), ("pi", .num piFloat),
   ("pow", .fn "pow"), ("radians", .fn "radians"), ("sin", .fn "sin"),
   ("sinh", .fn "sinh"), ("sqrt", .fn "sqrt"), ("tan", .fn "tan"),
   ("tanh", .fn "tanh"), ("abs", .fn "abs")]

/-- Python dictionary upsert: an existing key keeps its position with the
new value, a new key is appended (insertion order). -/
def setKey {V : Type} (k : String) (v : V) : List (String × V) → List (String × V)
  | [] => [(k, v)]
  | (k2, v2) :: rest => if k2 = k then (k, v) :: rest else (k2, v2) :: setKey k v rest

/-- Name resolution during `eval`: the locals dictionary
(`_safe_math_functions`, with `x` bound), then the globals
`{"__builtins__": None}` which contribute no further names; an unknown
name raises `NameError`. -/
def lookupName (env : List (String × PyObj)) (n : String) : Except PyError PyObj :=
  match env.find? (fun p => p.1 = n) with
  | some p => .ok p.2
  | none => .error (.nameError n)

/-- CPython attribute access on the modelled object graph.  Restricting
`eval`'s globals does not restrict attribute access: every object carries
`__class__` and from there the whole class graph is reachable.  Only the
edge needed by the claims is modelled; unmodelled attributes raise, which
under-approximates the real attack surface. -/
def pyGetattr (o : PyObj) (f : String) : Except PyError PyObj :=
  match o, f with
  | .num _, "__class__" => .ok (.cls "float")
  | .cls _, "__class__" => .ok (.cls "type")
  | _, _ => .error .attributeError

/-- 2-argument whitelist functions. -/
def twoArgFns : List String := ["atan2", "fmod", "hypot", "ldexp", "pow"]

/-- Math functions returning a 2-tuple. -/
def tupleFns : List String := ["modf", "frexp"]

/-- Domain of the 1-argument math functions: outside it CPython raises
`ValueError("math domain error")`. -/
def domainOK1 (name : String) (q : ℚ) : Bool :=
  match name with
  | "sqrt" => 0 ≤ q
  | "log" => 0 < q
  | "log10" => 0 < q
  | "asin" => -1 ≤ q ∧ q ≤ 1
  | "acos" => -1 ≤ q ∧ q ≤ 1
  | _ => true

/-- Application of a whitelisted math-function object.  `ceil`, `floor`,
`fabs` and `abs` are computed exactly; transcendental values come from
the abstract semantics `sem`. -/
def applyMathFn (sem : MathSem) (name : String) (args : List PyObj) : Except PyError PyObj :=
  if name ∈ twoArgFns then
    match args with
    | [.num a, .num b] =>
      if name = "fmod" ∧ b = 0 then .error (.valueError "math domain error")
      else .ok (.num (sem.f2 name a b))
    | _ => .error .typeError
  else
    match args with
    | [.num q] =>
      if domainOK1 name q then
        if name ∈ tupleFns then .ok (.tup (sem.f1 name q) (sem.f2 name q q))
        else if name = "floor" then .ok (.num (⌊q⌋ : ℤ))
        else if name = "ceil" then .ok (.num (⌈q⌉ : ℤ))
        else if name = "fabs" ∨ name = "abs" then .ok (.num |q|)
        else .ok (.num (sem.f1 name q))
      else .error (.valueError "math domain error")
    | _ => .error .typeError

/-- Calling an object: whitelisted functions dispatch to `applyMathFn`;
the `float` class object is callable (its constructor runs); everything
else raises `TypeError`. -/
def pyCall (sem : MathSem) (f : PyObj) (args : List PyObj) : Except PyError PyObj :=
  match f with
  | .fn name => applyMathFn sem name args
  | .cls "float" =>
    match args with
    | [.num q] => .ok (.num q)
    | _ => .error .typeError
  | _ => .error .typeError

/-- Arithmetic of the expression fragment (exact-rational stand-in for
float arithmetic; division by zero raises). -/
def pyBinop (op : BinOp) (a b : PyObj) : Except PyError PyObj :=
  match a, b with
  | .num x, .num y =>
    match op with
    | .add => .ok (.num (x + y))
    | .sub => .ok (.num (x - y))
    | .mul => .ok (.num (x * y))
    | .div => if y = 0 then .error .zeroDivisionError else .ok (.num (x / y))
  | _, _ => .error .typeError

/-- Instrumented CPython `eval` on the expression fragment: besides the
value it records, in order, every identifier successfully resolved (bare
names and attribute names) and every object successfully called.  The
instrumentation is bookkeeping only and does not influence the value. -/
def pyEval (sem : MathSem) (env : List (String × PyObj)) :
    Expr → Except PyError (PyObj × List String × List PyObj)
  | .num q => .ok (.num q, [], [])
  | .name n =>
    match lookupName env n with
    | .ok v => .ok (v, [n], [])
    | .error e => .error e
  | .attr e f =>
    match pyEval sem env e with
    | .error er => .error er
    | .ok (v, ns, cs) =>
      match pyGetattr v f with
      | .ok a => .ok (a, ns ++ [f], cs)
      | .error er => .error er
  | .call1 f a =>
    match pyEval sem env f with
    | .error er => .error er
    | .ok (vf, ns, cs) =>
      match pyEval sem env a with
      | .error er => .error er
      | .ok (va, ns2, cs2) =>
        match pyCall sem vf [va] with
        | .ok r => .ok (r, ns ++ ns2, cs ++ cs2 ++ [vf])
        | .error er => .error er
  | .call2 f a b =>
    match pyEval sem env f with
    | .error er => .error er
    | .ok (vf, ns, cs) =>
      match pyEval sem env a with
      | .error er => .error er
      | .ok (va, ns2, cs2) =>
        match pyEval sem env b with
        | .error er => .error er
        | .ok (vb, ns3, cs3) =>
          match pyCall sem vf [va, vb] with
          | .ok r => .ok (r, ns ++ ns2 ++ ns3, cs ++ cs2 ++ cs3 ++ [vf])
          | .error er => .error er
  | .binop op a b =>
    match pyEval sem env a with
    | .error er => .error er
    | .ok (va, ns, cs) =>
      match pyEval sem env b with
      | .error er => .error er
      | .ok (vb, ns2, cs2) =>
        match pyBinop op va vb with
        | .ok r => .ok (r, ns ++ ns2, cs ++ cs2)
        | .error er => .error er

/-- Python `float(obj)`: numbers convert, everything else in the fragment
raises `TypeError`. -/
def pyFloat : PyObj → Except PyError ℚ
  | .num q => .ok q
  | _ => .error .typeError

/-- `str(ex)` of the modelled exceptions, for the warning message. -/
def pyErrStr : PyError → String
  | .valueError m => m
  | .indexError => "list index out of range"
  | .attributeError => "attribute error"
  | .ioError m => m
  | .nameError n => "name " ++ n ++ " is not defined"
  | .typeError => "type error"
  | .zeroDivisionError => "division by zero"
  | .structError => "struct error"

/-- The evaluation performed by `read_registers` lines 251-254:
`_safe_math_functions['x'] = sensor_value` followed by
`float(eval(equation, {"__builtins__": None}, _safe_math_functions))`. -/
def evalEquation (sem : MathSem) (eq : Expr) (x : ℚ) : Except PyError ℚ :=
  match pyEval sem (setKey "x" (.num x) safeMathEnv) eq with
  | .error e => .error e
  | .ok (v, _, _) => pyFloat v

/-! ## Reading (`__init__.py` lines 163-333) -/

/-- Result object of a discrete range read: either it carries a `bits`
attribute, or it is `None`/an exception response, on which accessing
`.bits` raises `AttributeError`. -/
inductive BitsResult
  | ok (bits : List Bool)
  | noAttr
deriving Repr

/-- Result object of a register range read: either it carries a
`registers` attribute, or accessing `.registers` raises `AttributeError`. -/
inductive RegsResult
  | ok (registers : List ℕ)
  | noAttr
deriving Repr

/-- Per-sensor body of `read_discretes` (lines 195-197): index
`results.bits` at `address - start_address`.  An absent `bits` attribute
raises `AttributeError`; indexing past the end raises `IndexError`.
Addresses are at or above the group start for groups produced by the
grouping algorithm, so natural subtraction is exact. -/
def readDiscSensors (results : BitsResult) (g : DGroup) :
    List DSensor → Except PyError (List (String × Bool))
  | [] => .ok []
  | s :: ss =>
    match results with
    | .noAttr => .error .attributeError
    | .ok bits =>
      let position := s.address - g.start_address
      match bits[position]? with
      | none => .error .indexError
      | some b =>
        match readDiscSensors results g ss with
        | .error e => .error e
        | .ok rest => .ok ((s.id, b) :: rest)

/-- The per-group `try`/`except AttributeError` of `read_discretes`
(lines 194-200): only `AttributeError` is converted to
`IOError("reading discrete <type>s failed")`. -/
def readDiscGroups (t : String) (cDI cCoils : ℕ → ℕ → BitsResult) :
    List DGroup → Except PyError (List (String × Bool))
  | [] => .ok []
  | g :: gs =>
    let results := if t = "input" then cDI g.start_address g.count
      else if t = "output" then cCoils g.start_address g.count else .noAttr
    match
      (match readDiscSensors results g g.sensors with
       | .error .attributeError => .error (.ioError ("reading discrete " ++ t ++ "s failed"))
       | .error e => .error e
       | .ok r => .ok r : Except PyError (List (String × Bool))) with
    | .error e => .error e
    | .ok r =>
      match readDiscGroups t cDI cCoils gs with
      | .error e => .error e
      | .ok rest => .ok (r ++ rest)

/-- `ModbusReader.read_discretes` (lines 163-202).  The client calls are
modelled as functions from `(address, count)` to the raw result. -/
def read_discretes (grouped : GroupedDefinition) (discrete_type : String)
    (cDI cCoils : ℕ → ℕ → BitsResult) : Except PyError (List (String × Bool)) :=
  if discrete_type ≠ "input" ∧ discrete_type ≠ "output" then .error .attributeError
  else
    readDiscGroups discrete_type cDI cCoils
      (if discrete_type = "input" then grouped.discrete_inputs else grouped.discrete_outputs)

/-- Decoding and scaling of one register sensor (`read_registers` lines
236-247): fetch `results.registers`, slice
`[position_start:position_end]`, reverse for low-word-first floats, pack
to bytes, decode per the declared type, multiply by the factor. -/
def decode_scaled (flbf : Bool) (results : RegsResult) (g : RGroup) (s : RegSensor) :
    Except PyError ℚ :=
  match results with
  | .noAttr => .error .attributeError
  | .ok regs =>
    let position_start := s.address - g.start_address
    let position_end := position_start + s.count
    let slice0 := (regs.drop position_start).take (position_end - position_start)
    let slice := if s.type = "float" ∧ flbf then slice0.reverse else slice0
    match int16list_to_bytes slice with
    | .error e => .error e
    | .ok byte_list =>
      match bytes_to_datatype byte_list s.type with
      | .error e => .error e
      | .ok raw => .ok (pyToRat raw * s.factor)

/-- The warning text of `read_registers` lines 256-257. -/
def warnMsg (id : String) (e : PyError) : String :=
  "Error correction failed for sensor id " ++ id ++
  ". Using original value instead. Error details: " ++ pyErrStr e

/-- The error-correction step (`read_registers` lines 249-257): when an
equation is present it is evaluated with the scaled value bound to `x`;
any exception is logged as a warning and the pre-correction value kept. -/
def correctionStage (sem : MathSem) (id : String) (ec : Option Expr) (v : ℚ) :
    ℚ × List String :=
  match ec with
  | none => (v, [])
  | some eq =>
    match evalEquation sem eq v with
    | .ok c => (c, [])
    | .error e => (v, [warnMsg id e])

/-- The rounding step (`read_registers` lines 259-260): integer-typed
sensors are rounded to `int(1 / factor)` decimal places; a zero factor
raises `ZeroDivisionError` as in Python. -/
def roundStage (s : RegSensor) (v : ℚ) : Except PyError ℚ :=
  if s.type = "int16" ∨ s.type = "int32" ∨ s.type = "uint32" then
    if s.factor = 0 then .error .zeroDivisionError
    else .ok (pyRound v (pyTrunc (1 / s.factor)))
  else .ok v

/-- Full per-sensor processing of `read_registers` (lines 236-264),
also returning the warnings sent to the logger. -/
def processRegisterSensor (sem : MathSem) (flbf : Bool) (results : RegsResult)
    (g : RGroup) (s : RegSensor) : Except PyError (ℚ × List String) :=
  match decode_scaled flbf results g s with
  | .error e => .error e
  | .ok v0 =>
    let c := correctionStage sem s.id s.error_correction v0
    match roundStage s c.1 with
    | .error e => .error e
    | .ok v2 => .ok (v2, c.2)

/-- The per-sensor loop of `read_registers` with its `try`/`except
AttributeError` (lines 234-267): only `AttributeError` becomes
`IOError("reading <type> registers failed")`; other exceptions
propagate unchanged. -/
def readRegSensors (sem : MathSem) (flbf : Bool) (t : String) (results : RegsResult)
    (g : RGroup) : List RegSensor → Except PyError (List (String × ℚ) × List String)
  | [] => .ok ([], [])
  | s :: ss =>
    match
      (match processRegisterSensor sem flbf results g s with
       | .error .attributeError => .error (.ioError ("reading " ++ t ++ " registers failed"))
       | .error e => .error e
       | .ok r => .ok r : Except PyError (ℚ × List String)) with
    | .error e => .error e
    | .ok (v, w) =>
      match readRegSensors sem flbf t results g ss with
      | .error e => .error e
      | .ok (rest, ws) => .ok ((s.id, v) :: rest, w ++ ws)

/-- The per-group loop of `read_registers` (lines 226-267). -/
def readRegGroups (sem : MathSem) (flbf : Bool) (t : String)
    (cIR cHR : ℕ → ℕ → RegsResult) :
    List RGroup → Except PyError (List (String × ℚ) × List String)
  | [] => .ok ([], [])
  | g :: gs =>
    let results := if t = "input" then cIR g.start_address g.count
      else if t = "output" then cHR g.start_address g.count else .noAttr
    match readRegSensors sem flbf t results g g.sensors with
    | .error e => .error e
    | .ok (r, w) =>
      match readRegGroups sem flbf t cIR cHR gs with
      | .error e => .error e
      | .ok (rest, ws) => .ok (r ++ rest, w ++ ws)

/-- `ModbusReader.read_registers` (lines 204-269). -/
def read_registers (sem : MathSem) (grouped : GroupedDefinition) (flbf : Bool)
    (register_type : String) (cIR cHR : ℕ → ℕ → RegsResult) :
    Except PyError (List (String × ℚ) × List String) :=
  if register_type ≠ "input" ∧ register_type ≠ "output" then .error .attributeError
  else
    readRegGroups sem flbf register_type cIR cHR
      (if register_type = "input" then grouped.input_registers else grouped.output_registers)

/-- A flat reading value: boolean for discretes, number for registers. -/
inductive PyReading
  | b (v : Bool)
  | q (v : ℚ)
deriving DecidableEq, Repr

/-- Python `dict.update`: merge `newEntries` into `d` left to right. -/
def dictUpdate {V : Type} (d : List (String × V)) (newEntries : List (String × V)) :
    List (String × V) :=
  newEntries.foldl (fun acc p => setKey p.1 p.2 acc) d

/-- The external protocol client: the four blocking range-read calls. -/
structure ClientModel where
  di : ℕ → ℕ → BitsResult
  coils : ℕ → ℕ → BitsResult
  ir : ℕ → ℕ → RegsResult
  hr : ℕ → ℕ → RegsResult

/-- `ModbusReader.read_all_values` (lines 315-333): the four categories
in fixed order, first `IOError` re-raised unchanged; register warnings go
to the logger and are not part of the returned reading. -/
def read_all_values (sem : MathSem) (grouped : GroupedDefinition) (flbf : Bool)
    (c : ClientModel) : Except PyError (List (String × PyReading)) :=
  match read_discretes grouped "input" c.di c.coils with
  | .error e => .error e
  | .ok di =>
    match read_discretes grouped "output" c.di c.coils with
    | .error e => .error e
    | .ok dOut =>
      match read_registers sem grouped flbf "input" c.ir c.hr with
      | .error e => .error e
      | .ok ir =>
        match read_registers sem grouped flbf "output" c.ir c.hr with
        | .error e => .error e
        | .ok rOut =>
          .ok (dictUpdate (dictUpdate (dictUpdate (dictUpdate []
            (di.map (fun p => (p.1, PyReading.b p.2))))
            (dOut.map (fun p => (p.1, PyReading.b p.2))))
            (ir.1.map (fun p => (p.1, PyReading.q p.2))))
            (rOut.1.map (fun p => (p.1, PyReading.q p.2))))

/-- The state a `ModbusReader` instance holds after construction that the
read methods can see.  The grouped definition is stored once. -/
structure ModbusReaderState where
  grouped_modbus_device_definition : GroupedDefinition
  float_low_byte_first : Bool

/-- One public read call on a reader instance. -/
inductive ReadCall
  | discretes (t : String)
  | registers (t : String)
  | allValues

/-- `read_discretes` as a method: the body never assigns to `self`, so
the instance state is returned unchanged alongside the result. -/
def read_discretesS (self : ModbusReaderState) (c : ClientModel) (t : String) :
    ModbusReaderState × Except PyError (List (String × Bool)) :=
  (self, read_discretes self.grouped_modbus_device_definition t c.di c.coils)

/-- `read_registers` as a method: the body reads
`self.grouped_modbus_device_definition` and `self.float_low_byte_first`
and assigns to neither `self` nor any dictionary reachable from the
grouped definition (the only mutated global is the transient `'x'`
binding in `_safe_math_functions`). -/
def read_registersS (sem : MathSem) (self : ModbusReaderState) (c : ClientModel)
    (t : String) : ModbusReaderState × Except PyError (List (String × ℚ) × List String) :=
  (self, read_registers sem self.grouped_modbus_device_definition
    self.float_low_byte_first t c.ir c.hr)

/-- `read_all_values` as a method. -/
def read_all_valuesS (sem : MathSem) (self : ModbusReaderState) (c : ClientModel) :
    ModbusReaderState × Except PyError (List (String × PyReading)) :=
  (self, read_all_values sem self.grouped_modbus_device_definition
    self.float_low_byte_first c)

/-- The state evolution of one read call. -/
def stepState (sem : MathSem) (c : ClientModel) (self : ModbusReaderState) :
    ReadCall → ModbusReaderState
  | .discretes t => (read_discretesS self c t).1
  | .registers t => (read_registersS sem self c t).1
  | .allValues => (read_all_valuesS sem self c).1

/-- The reader state after an arbitrary sequence of read calls. -/
def runCalls (sem : MathSem) (c : ClientModel) (self : ModbusReaderState)
    (calls : List ReadCall) : ModbusReaderState :=
  calls.foldl (stepState sem c) self

/-! Specification-side rounding (modelled from the claim's words, for the
refutation of claim C6): round to `round(1 / factor)` decimal places,
0 decimal places when `factor == 1`. -/

/-- Modelled from the spec: the decimal-place count the claim asserts. -/
def claimedRoundDigits (factor : ℚ) : ℤ :=
  if factor = 1 then 0 else halfEvenZ (1 / factor)

/-- Modelled from the spec: the final value the claim asserts for
integer-typed sensors. -/
def claimedFinalValue (factor v : ℚ) : ℚ :=
  pyRound v (claimedRoundDigits factor)

/-! ## Helper lemmas -/

theorem int16list_to_bytes_length : ∀ (ws bs : List ℕ),
    int16list_to_bytes ws = .ok bs → bs.length = 2 * ws.length := by
  intro ws
  induction ws with
  | nil =>
    intro bs h
    simp only [int16list_to_bytes] at h
    cases h
    rfl
  | cons w ws ih =>
    intro bs h
    simp only [int16list_to_bytes] at h
    split at h
    · split at h
      next rest heq =>
        cases h
        have := ih rest heq
        simp [this]
        ring
      next => cases h
    · cases h

theorem not_ok_of_isValueErr {α : Type} (r : Except PyError α)
    (h : isValueErr r = true) : ∀ v, r ≠ .ok v := by
  intro v hv
  subst hv
  simp [isValueErr] at h

theorem bytes_to_datatype_len_ne (dt : String) (w : ℕ) (h : calcsize dt = .ok w)
    (bs : List ℕ) (hne : bs.length ≠ w) :
    isValueErr (bytes_to_datatype bs dt) = true := by
  simp only [bytes_to_datatype, h]
  rw [if_pos (Ne.symm hne)]
  rfl

theorem bytes_to_datatype_len_eq (dt : String) (w : ℕ) (fmt : String)
    (h : calcsize dt = .ok w) (hf : get_format dt = .ok fmt)
    (bs : List ℕ) (he : bs.length = w) :
    isValueErr (bytes_to_datatype bs dt) = false := by
  simp only [bytes_to_datatype, h, hf]
  rw [if_neg (by simp [he])]
  cases structUnpackBE fmt bs <;> rfl

theorem decode_scaled_byte_not_ok (flbf : Bool) (results : RegsResult)
    (g : RGroup) (s : RegSensor) (hty : s.type = "byte") (v : ℚ) :
    decode_scaled flbf results g s ≠ .ok v := by
  unfold decode_scaled
  cases results with
  | noAttr => simp
  | ok regs =>
    simp only
    split
    next e heq => simp
    next bl heq =>
      have hlen := int16list_to_bytes_length _ _ heq
      rw [hty]
      have hv := bytes_to_datatype_len_ne "byte" 1 rfl bl (by omega)
      cases hbd : bytes_to_datatype bl "byte" with
      | error e => simp [hbd]
      | ok raw =>
        rw [hbd] at hv
        simp [isValueErr] at hv

/-! ## Claim theorems -/

/-- C1 counterexample: the claim asserts `calcsize "int32" = 4` bytes, but
the source maps `int32` to the 2-byte struct format `H`, so
`calcsize "int32"` is 2, not 4 (the repository's own test
`test_calcsize` asserts exactly this value). -/
theorem calcsize_int32_is_two_not_four :
    calcsize "int32" = .ok 2 ∧ (Except.ok 2 : Except PyError ℕ) ≠ .ok 4 := by
  exact ⟨rfl, by simp⟩

/-- C1 (amended): the byte widths `calcsize` actually returns:
int16 → 2, int32 → 2, uint32 → 4, float → 4, byte → 1, boolean → 1. -/
theorem calcsize_widths_amended :
    calcsize "int16" = .ok 2 ∧ calcsize "int32" = .ok 2 ∧
    calcsize "uint32" = .ok 4 ∧ calcsize "float" = .ok 4 ∧
    calcsize "byte" = .ok 1 ∧ calcsize "boolean" = .ok 1 := by
  exact ⟨rfl, rfl, rfl, rfl, rfl, rfl⟩

/-- C2: the `eval`-based correction evaluator is not confined to the
whitelist.  For the formula `x.__class__(1)` evaluation succeeds under
every interpretation of the math functions and any bound value of `x`,
resolving the attribute name `__class__` -- which is not a key of
`_safe_math_functions` -- and calling the `float` class object, a
callable that is not among the whitelisted function objects.  In CPython
the same `__class__` edge continues to `__bases__`/`__subclasses__()` and
reaches every loaded class, i.e. arbitrary code execution. -/
theorem eval_sandbox_escape :
    ∀ (sem : MathSem) (x0 : ℚ),
      pyEval sem (setKey "x" (.num x0) safeMathEnv)
        (Expr.call1 (Expr.attr (Expr.name "x") "__class__") (Expr.num 1)) =
        .ok (.num 1, ["x", "__class__"], [.cls "float"])
      ∧ (safeMathEnv.map Prod.fst).contains "__class__" = false
      ∧ safeMathEnv.all (fun p => p.2 ≠ .cls "float") = true := by
  intro sem x0
  exact ⟨rfl, by decide, by decide⟩

/-- C8: for every supported data type, decoding a byte sequence whose
length differs from the type's width fails with a `ValueError` (never
silently truncates or pads), and a byte sequence of exactly the required
length never produces that `ValueError`. -/
theorem decode_length_mismatch :
    ∀ dt ∈ ["int16", "int32", "uint32", "float", "byte", "boolean"],
    ∀ (bs : List ℕ) (w : ℕ), calcsize dt = .ok w →
      (bs.length ≠ w → isValueErr (bytes_to_datatype bs dt) = true) ∧
      (bs.length = w → isValueErr (bytes_to_datatype bs dt) = false) := by
  intro dt hdt bs w hw
  refine ⟨fun hne => bytes_to_datatype_len_ne dt w hw bs hne, fun he => ?_⟩
  fin_cases hdt
  · exact bytes_to_datatype_len_eq _ _ "h" hw rfl bs he
  · exact bytes_to_datatype_len_eq _ _ "H" hw rfl bs he
  · exact bytes_to_datatype_len_eq _ _ "I" hw rfl bs he
  · exact bytes_to_datatype_len_eq _ _ "f" hw rfl bs he
  · exact bytes_to_datatype_len_eq _ _ "x" hw rfl bs he
  · exact bytes_to_datatype_len_eq _ _ "?" hw rfl bs he

/-- C8 witness: `int16` requires 2 bytes; a 1-byte input is a
`ValueError`, a 2-byte input is not. -/
theorem decode_length_mismatch_witness :
    isValueErr (bytes_to_datatype [0] "int16") = true ∧
    isValueErr (bytes_to_datatype [0, 1] "int16") = false := by
  exact ⟨(decode_length_mismatch "int16" (by decide) [0] 2 rfl).1 (by decide),
    (decode_length_mismatch "int16" (by decide) [0, 1] 2 rfl).2 (by decide)⟩

/-- C10: decoding any 1-byte sequence as type `byte` raises `IndexError`
(the pad format `x` consumes the byte but yields no field to index), and
a register sensor declared with type `byte` can never be processed
successfully by `read_registers`: its per-sensor processing never
returns a value, for any client result and any semantics. -/
theorem byte_type_never_decodes :
    (∀ b : ℕ, bytes_to_datatype [b] "byte" = .error .indexError) ∧
    (∀ (sem : MathSem) (flbf : Bool) (results : RegsResult) (g : RGroup)
       (s : RegSensor), s.type = "byte" →
       ∀ (v : ℚ) (w : List String),
         processRegisterSensor sem flbf results g s ≠ .ok (v, w)) := by
  constructor
  · intro b
    rfl
  · intro sem flbf results g s hty v w
    unfold processRegisterSensor
    cases hd : decode_scaled flbf results g s with
    | error e => simp
    | ok v0 => exact absurd hd (decode_scaled_byte_not_ok flbf results g s hty v0)

/-- C10 witness: a concrete `byte`-typed sensor is never decoded. -/
theorem byte_type_never_decodes_witness :
    bytes_to_datatype [7] "byte" = .error .indexError ∧
    processRegisterSensor mathSem0 false (.ok [1])
      ⟨0, 0, [⟨"b", 0, "byte", 1, none, 0⟩]⟩ ⟨"b", 0, "byte", 1, none, 0⟩ ≠
      .ok (0, []) := by
  exact ⟨byte_type_never_decodes.1 7,
    byte_type_never_decodes.2 mathSem0 false (.ok [1]) _ _ rfl 0 []⟩

/-- C4: grouping the discrete definitions `{a: 0, b: 1, c: 3}` yields
exactly `[{start_address 0, count 2, sensors {a, b}},
{start_address 3, count 1, sensors {c}}]`. -/
theorem scenarioA_discrete_grouping :
    groupDiscreteCategory [⟨"a", 0⟩, ⟨"b", 1⟩, ⟨"c", 3⟩] =
      [⟨0, 2, [⟨"a", 0⟩, ⟨"b", 1⟩]⟩, ⟨3, 1, [⟨"c", 3⟩]⟩] := by
  decide

/-- C6 counterexample: for an `int16` sensor with factor `2/3` and raw
word `1`, the code rounds the scaled value `2/3` to
`int(1 / (2/3)) = int(1.5) = 1` decimal place, giving `0.7`, while the
claim's formula `round(1 / factor) = round(1.5) = 2` decimal places would
give `0.67`; the two disagree, so the claimed rounding rule is false on
the code. -/
theorem rounding_digits_counterexample :
    processRegisterSensor mathSem0 false (.ok [1])
      ⟨0, 1, [⟨"t", 0, "int16", 2/3, none, 1⟩]⟩ ⟨"t", 0, "int16", 2/3, none, 1⟩ =
      .ok (7/10, []) ∧
    claimedFinalValue (2/3) (2/3) = 67/100 ∧
    ((7 : ℚ)/10 ≠ 67/100) := by
  refine ⟨?_, ?_, by norm_num⟩
  · simp [processRegisterSensor, decode_scaled, int16list_to_bytes, bytes_to_datatype,
      calcsize, get_format, _data_types, structCalcsize, structUnpackBE, beNat, pyToRat,
      Except.map, correctionStage, roundStage]
    norm_num [pyRound, pyTrunc, halfEvenZ]
  · norm_num [claimedFinalValue, claimedRoundDigits, pyRound, halfEvenZ]

/-- C6 (amended): integer-typed sensors (`int16`, `int32`, `uint32`) are
rounded to `int(1 / factor)` decimal places -- truncation toward zero,
not `round`, so `factor == 1` gives 1 decimal place, not 0 -- applied to
the scaled (and possibly corrected) value; sensors of type `float`,
`byte` or `boolean` are never rounded. -/
theorem rounding_digits_amended :
    ∀ (sem : MathSem) (flbf : Bool) (results : RegsResult) (g : RGroup)
      (s : RegSensor) (v0 v : ℚ) (w : List String),
      decode_scaled flbf results g s = .ok v0 →
      correctionStage sem s.id s.error_correction v0 = (v, w) →
      ((s.type = "int16" ∨ s.type = "int32" ∨ s.type = "uint32") → s.factor ≠ 0 →
        processRegisterSensor sem flbf results g s =
          .ok (pyRound v (pyTrunc (1 / s.factor)), w)) ∧
      (¬(s.type = "int16" ∨ s.type = "int32" ∨ s.type = "uint32") →
        processRegisterSensor sem flbf results g s = .ok (v, w)) := by
  intro sem flbf results g s v0 v w hd hc
  constructor
  · intro hty hf
    simp [processRegisterSensor, hd, hc, roundStage, hty, hf]
  · intro hty
    simp [processRegisterSensor, hd, hc, roundStage, hty]

/-- C6 witness: an `int16` sensor with factor 1 and raw word 5 is rounded
to `int(1/1) = 1` decimal place, leaving the value 5. -/
theorem rounding_digits_amended_witness :
    processRegisterSensor mathSem0 false (.ok [5]) ⟨0, 1, [⟨"w6", 0, "int16", 1, none, 1⟩]⟩
      ⟨"w6", 0, "int16", 1, none, 1⟩ = .ok (pyRound 5 (pyTrunc (1 / 1)), []) := by
  exact (rounding_digits_amended mathSem0 false (.ok [5])
    ⟨0, 1, [⟨"w6", 0, "int16", 1, none, 1⟩]⟩ ⟨"w6", 0, "int16", 1, none, 1⟩ 5 5 []
    (by simp [decode_scaled, int16list_to_bytes, bytes_to_datatype, calcsize, get_format,
      _data_types, structCalcsize, structUnpackBE, beNat, pyToRat, Except.map]) rfl).1
    (Or.inl rfl) (by norm_num)

/-- C7: when a sensor has a correction formula and its evaluation with the
scaled value bound to `x` fails for any reason, the per-sensor processing
still succeeds, the warning is recorded, and the pre-correction scaled
value is the one that feeds the rounding step; the overall register read
completes without raising. -/
theorem correction_failure_fallback :
    ∀ (sem : MathSem) (flbf : Bool) (results : RegsResult) (g : RGroup)
      (s : RegSensor) (eq : Expr) (x r : ℚ) (e : PyError),
      s.error_correction = some eq →
      decode_scaled flbf results g s = .ok x →
      evalEquation sem eq x = .error e →
      roundStage s x = .ok r →
      processRegisterSensor sem flbf results g s = .ok (r, [warnMsg s.id e]) ∧
      (∀ (grouped : GroupedDefinition) (cIR cHR : ℕ → ℕ → RegsResult),
        grouped.input_registers = [g] → g.sensors = [s] →
        cIR g.start_address g.count = results →
        read_registers sem grouped flbf "input" cIR cHR =
          .ok ([(s.id, r)], [warnMsg s.id e])) := by
  intro sem flbf results g s eq x r e hec hd hev hr
  have hmain : processRegisterSensor sem flbf results g s = .ok (r, [warnMsg s.id e]) := by
    simp [processRegisterSensor, hd, correctionStage, hec, hev, hr]
  refine ⟨hmain, fun grouped cIR cHR hg hs hc => ?_⟩
  simp [read_registers, readRegGroups, hg, hc, readRegSensors, hs, hmain]

/-- C7 witness: equation `sqrt(-1)` fails with a math domain error; the
sensor keeps its pre-correction scaled value 5 and the read succeeds. -/
theorem correction_failure_fallback_witness :
    processRegisterSensor mathSem0 false (.ok [5])
      ⟨0, 1, [⟨"s7", 0, "int16", 1, some (.call1 (.name "sqrt") (.num (-1))), 1⟩]⟩
      ⟨"s7", 0, "int16", 1, some (.call1 (.name "sqrt") (.num (-1))), 1⟩ =
      .ok (5, [warnMsg "s7" (.valueError "math domain error")]) ∧
    read_registers mathSem0
      ⟨[], [], [⟨0, 1, [⟨"s7", 0, "int16", 1, some (.call1 (.name "sqrt") (.num (-1))), 1⟩]⟩], []⟩
      false "input" (fun _ _ => .ok [5]) (fun _ _ => .noAttr) =
      .ok ([("s7", 5)], [warnMsg "s7" (.valueError "math domain error")]) := by
  have h := correction_failure_fallback mathSem0 false (.ok [5])
    ⟨0, 1, [⟨"s7", 0, "int16", 1, some (.call1 (.name "sqrt") (.num (-1))), 1⟩]⟩
    ⟨"s7", 0, "int16", 1, some (.call1 (.name "sqrt") (.num (-1))), 1⟩
    (.call1 (.name "sqrt") (.num (-1))) 5 5 (.valueError "math domain error")
    rfl
    (by simp [decode_scaled, int16list_to_bytes, bytes_to_datatype, calcsize, get_format,
      _data_types, structCalcsize, structUnpackBE, beNat, pyToRat, Except.map])
    (by simp [evalEquation, pyEval, lookupName, setKey, safeMathEnv, pyCall, applyMathFn,
      twoArgFns, domainOK1]; norm_num)
    (by simp [roundStage]; norm_num [pyRound, pyTrunc, halfEvenZ])
  exact ⟨h.1, h.2 _ _ _ rfl rfl rfl⟩

/-- C3 counterexample: a discrete-input range read whose raw result is
shorter than the declared group count (1 bit returned for a group of
count 2) makes `read_discretes` raise `IndexError`, not the claimed
I/O-kind error: only an `AttributeError` (absent result) is converted to
`IOError("reading <category> failed")`. -/
theorem short_result_raises_index_error :
    read_discretes ⟨[⟨0, 2, [⟨"a", 0⟩, ⟨"b", 1⟩]⟩], [], [], []⟩ "input"
      (fun _ _ => .ok [false]) (fun _ _ => .noAttr) = .error .indexError ∧
    isIOErr (read_discretes ⟨[⟨0, 2, [⟨"a", 0⟩, ⟨"b", 1⟩]⟩], [], [], []⟩ "input"
      (fun _ _ => .ok [false]) (fun _ _ => .noAttr)) = false := by
  exact ⟨rfl, rfl⟩

/-- C3 (amended): an absent raw result (one without the expected
`bits`/`registers` attribute) makes the read fail with exactly
`IOError("reading <category> failed")`, for both discretes and
registers; a result that is present but shorter than the declared group
count instead raises `IndexError` (discretes) or a length-mismatch
`ValueError` (registers), which propagate unchanged. -/
theorem read_failure_semantics_amended :
    (∀ (grouped : GroupedDefinition) (t : String) (cDI cCoils : ℕ → ℕ → BitsResult)
       (g : DGroup) (gs : List DGroup) (s : DSensor) (ss : List DSensor),
       (t = "input" ∨ t = "output") →
       (if t = "input" then grouped.discrete_inputs else grouped.discrete_outputs) = g :: gs →
       g.sensors = s :: ss →
       (if t = "input" then cDI g.start_address g.count else cCoils g.start_address g.count) = .noAttr →
       read_discretes grouped t cDI cCoils =
         .error (.ioError ("reading discrete " ++ t ++ "s failed"))) ∧
    (∀ (sem : MathSem) (flbf : Bool) (grouped : GroupedDefinition)
       (t : String) (cIR cHR : ℕ → ℕ → RegsResult)
       (g : RGroup) (gs : List RGroup) (s : RegSensor) (ss : List RegSensor),
       (t = "input" ∨ t = "output") →
       (if t = "input" then grouped.input_registers else grouped.output_registers) = g :: gs →
       g.sensors = s :: ss →
       (if t = "input" then cIR g.start_address g.count else cHR g.start_address g.count) = .noAttr →
       read_registers sem grouped flbf t cIR cHR =
         .error (.ioError ("reading " ++ t ++ " registers failed"))) ∧
    isValueErr (read_registers mathSem0
      ⟨[], [], [⟨0, 1, [⟨"r", 0, "int16", 1, none, 1⟩]⟩], []⟩
      false "input" (fun _ _ => .ok []) (fun _ _ => .noAttr)) = true := by
  refine ⟨?_, ?_, rfl⟩
  · intro grouped t cDI cCoils g gs s ss ht hcat hsens hres
    rcases ht with ht | ht <;> subst ht <;>
      simp_all [read_discretes, readDiscGroups, readDiscSensors]
  · intro sem flbf grouped t cIR cHR g gs s ss ht hcat hsens hres
    rcases ht with ht | ht <;> subst ht <;>
      simp_all [read_registers, readRegGroups, readRegSensors,
        processRegisterSensor, decode_scaled]

/-- C3 witness: an absent discrete-input result yields exactly the
claimed I/O error. -/
theorem read_failure_semantics_amended_witness :
    read_discretes ⟨[⟨0, 1, [⟨"a", 0⟩]⟩], [], [], []⟩ "input"
      (fun _ _ => .noAttr) (fun _ _ => .noAttr) =
      .error (.ioError "reading discrete inputs failed") := by
  exact read_failure_semantics_amended.1 ⟨[⟨0, 1, [⟨"a", 0⟩]⟩], [], [], []⟩ "input"
    (fun _ _ => .noAttr) (fun _ _ => .noAttr) ⟨0, 1, [⟨"a", 0⟩]⟩ [] ⟨"a", 0⟩ []
    (Or.inl rfl) rfl rfl rfl

theorem specRunsR_cons : ∀ (xs : List RegSensor) (x : RegSensor),
    ∃ r rs, specRunsR (x :: xs) = (x :: r) :: rs := by
  intro xs
  induction xs with
  | nil => intro x; exact ⟨[], [], rfl⟩
  | cons t rest ih =>
    intro x
    obtain ⟨r, rs, h⟩ := ih t
    by_cases hadj : x.address + x.count = t.address
    · refine ⟨t :: r, rs, ?_⟩
      simp [specRunsR, hadj, h]
    · refine ⟨[], specRunsR (t :: rest), ?_⟩
      simp [specRunsR, hadj]

theorem specRunEndR_cons_cons (a b : RegSensor) (l : List RegSensor) :
    specRunEndR (a :: b :: l) = specRunEndR (b :: l) := by
  simp [specRunEndR, List.getLast?_cons_cons]

theorem groupRegLoop_master : ∀ (n : ℕ) (l : List RegSensor), l.length ≤ n →
    (groupRegLoop l none none [] = (specRunsR l).map specGroupR) ∧
    (∀ (st la lc : ℕ) (acc : List RegSensor) (s : RegSensor)
       (rest r : List RegSensor) (rs : List (List RegSensor)),
      l = s :: rest → la + lc = s.address →
      specRunsR l = (s :: r) :: rs →
      groupRegLoop l (some st) (some (la, lc)) acc =
        RGroup.mk st (specRunEndR (s :: r) - st) (acc ++ s :: r) :: rs.map specGroupR) := by
  intro n
  induction n with
  | zero =>
    intro l hl
    have hnil : l = [] := List.eq_nil_of_length_eq_zero (Nat.le_zero.mp hl)
    subst hnil
    exact ⟨rfl, by intro st la lc acc s rest r rs h; cases h⟩
  | succ n ih =>
    intro l hl
    cases l with
    | nil => exact ⟨rfl, by intro st la lc acc s rest r rs h; cases h⟩
    | cons s rest =>
      cases rest with
      | nil =>
        constructor
        · simp [groupRegLoop, specRunsR, specGroupR, specRunEndR]
        · intro st la lc acc s2 rest2 r rs h hlast hruns
          injection h with h1 h2
          subst h1
          subst h2
          simp only [specRunsR, List.cons.injEq] at hruns
          obtain ⟨⟨-, hr⟩, hrs⟩ := hruns
          subst hr
          subst hrs
          simp [groupRegLoop, hlast, specRunEndR]
      | cons t rest2 =>
        have hlen : (t :: rest2).length ≤ n := by
          simp at hl ⊢
          omega
        constructor
        · by_cases hadj : s.address + s.count = t.address
          · obtain ⟨r, rs, hruns⟩ := specRunsR_cons rest2 t
            have hB := (ih (t :: rest2) hlen).2 s.address s.address s.count [s]
              t rest2 r rs rfl hadj hruns
            have hstep : groupRegLoop (s :: t :: rest2) none none [] =
                groupRegLoop (t :: rest2) (some s.address) (some (s.address, s.count)) [s] := by
              simp [groupRegLoop, hadj]
            have hruns2 : specRunsR (s :: t :: rest2) = (s :: t :: r) :: rs := by
              simp [specRunsR, hadj, hruns]
            rw [hstep, hB, hruns2]
            simp [specGroupR, specRunEndR_cons_cons]
          · have hA2 := (ih (t :: rest2) hlen).1
            have hstep : groupRegLoop (s :: t :: rest2) none none [] =
                ⟨s.address, s.address + s.count - s.address, [s]⟩ ::
                  groupRegLoop (t :: rest2) none none [] := by
              simp [groupRegLoop, hadj]
            have hruns2 : specRunsR (s :: t :: rest2) = [s] :: specRunsR (t :: rest2) := by
              simp [specRunsR, hadj]
            rw [hstep, hA2, hruns2]
            simp [specGroupR, specRunEndR]
        · intro st la lc acc s2 rest3 r rs h hlast hruns
          injection h with h1 h2
          subst h1
          subst h2
          by_cases hadj : s.address + s.count = t.address
          · obtain ⟨r2, rs2, hruns2⟩ := specRunsR_cons rest2 t
            have hshape : specRunsR (s :: t :: rest2) = (s :: t :: r2) :: rs2 := by
              simp [specRunsR, hadj, hruns2]
            rw [hshape] at hruns
            simp only [List.cons.injEq] at hruns
            obtain ⟨⟨-, hr⟩, hrs⟩ := hruns
            subst hr
            subst hrs
            have hB := (ih (t :: rest2) hlen).2 st s.address s.count (acc ++ [s])
              t rest2 r2 rs2 rfl hadj hruns2
            have hstep : groupRegLoop (s :: t :: rest2) (some st) (some (la, lc)) acc =
                groupRegLoop (t :: rest2) (some st) (some (s.address, s.count)) (acc ++ [s]) := by
              simp [groupRegLoop, hlast, hadj]
            rw [hstep, hB]
            simp [specRunEndR_cons_cons]
          · have hA2 := (ih (t :: rest2) hlen).1
            have hshape : specRunsR (s :: t :: rest2) = [s] :: specRunsR (t :: rest2) := by
              simp [specRunsR, hadj]
            rw [hshape] at hruns
            simp only [List.cons.injEq] at hruns
            obtain ⟨⟨-, hr⟩, hrs⟩ := hruns
            subst hr
            have hstep : groupRegLoop (s :: t :: rest2) (some st) (some (la, lc)) acc =
                ⟨st, s.address + s.count - st, acc ++ [s]⟩ ::
                  groupRegLoop (t :: rest2) none none [] := by
              simp [groupRegLoop, hlast, hadj]
            rw [hstep, hA2, ← hrs]
            simp [specRunEndR]

theorem groupRegLoop_eq_runs (l : List RegSensor) :
    groupRegLoop l none none [] = (specRunsR l).map specGroupR :=
  (groupRegLoop_master l.length l le_rfl).1

theorem specRunsD_cons : ∀ (xs : List DSensor) (x : DSensor),
    ∃ r rs, specRunsD (x :: xs) = (x :: r) :: rs := by
  intro xs
  induction xs with
  | nil => intro x; exact ⟨[], [], rfl⟩
  | cons t rest ih =>
    intro x
    obtain ⟨r, rs, h⟩ := ih t
    by_cases hadj : x.address + 1 = t.address
    · refine ⟨t :: r, rs, ?_⟩
      simp [specRunsD, hadj, h]
    · refine ⟨[], specRunsD (t :: rest), ?_⟩
      simp [specRunsD, hadj]

theorem specRunEndD_cons_cons (a b : DSensor) (l : List DSensor) :
    specRunEndD (a :: b :: l) = specRunEndD (b :: l) := by
  simp [specRunEndD, List.getLast?_cons_cons]

theorem groupDiscLoop_master : ∀ (n : ℕ) (l : List DSensor), l.length ≤ n →
    (groupDiscLoop l none none [] = (specRunsD l).map specGroupD) ∧
    (∀ (st la : ℕ) (acc : List DSensor) (s : DSensor)
       (rest r : List DSensor) (rs : List (List DSensor)),
      l = s :: rest → la + 1 = s.address →
      specRunsD l = (s :: r) :: rs →
      groupDiscLoop l (some st) (some la) acc =
        DGroup.mk st (specRunEndD (s :: r) - st + 1) (acc ++ s :: r) :: rs.map specGroupD) := by
  intro n
  induction n with
  | zero =>
    intro l hl
    have hnil : l = [] := List.eq_nil_of_length_eq_zero (Nat.le_zero.mp hl)
    subst hnil
    exact ⟨rfl, by intro st la acc s rest r rs h; cases h⟩
  | succ n ih =>
    intro l hl
    cases l with
    | nil => exact ⟨rfl, by intro st la acc s rest r rs h; cases h⟩
    | cons s rest =>
      cases rest with
      | nil =>
        constructor
        · simp [groupDiscLoop, specRunsD, specGroupD, specRunEndD]
        · intro st la acc s2 rest2 r rs h hlast hruns
          injection h with h1 h2
          subst h1
          subst h2
          simp only [specRunsD, List.cons.injEq] at hruns
          obtain ⟨⟨-, hr⟩, hrs⟩ := hruns
          subst hr
          subst hrs
          simp [groupDiscLoop, hlast, specRunEndD]
      | cons t rest2 =>
        have hlen : (t :: rest2).length ≤ n := by
          simp at hl ⊢
          omega
        constructor
        · by_cases hadj : s.address + 1 = t.address
          · obtain ⟨r, rs, hruns⟩ := specRunsD_cons rest2 t
            have hB := (ih (t :: rest2) hlen).2 s.address s.address [s]
              t rest2 r rs rfl hadj hruns
            have hstep : groupDiscLoop (s :: t :: rest2) none none [] =
                groupDiscLoop (t :: rest2) (some s.address) (some s.address) [s] := by
              simp [groupDiscLoop, hadj]
            have hruns2 : specRunsD (s :: t :: rest2) = (s :: t :: r) :: rs := by
              simp [specRunsD, hadj, hruns]
            rw [hstep, hB, hruns2]
            simp [specGroupD, specRunEndD_cons_cons]
          · have hA2 := (ih (t :: rest2) hlen).1
            have hstep : groupDiscLoop (s :: t :: rest2) none none [] =
                ⟨s.address, s.address - s.address + 1, [s]⟩ ::
                  groupDiscLoop (t :: rest2) none none [] := by
              simp [groupDiscLoop, hadj]
            have hruns2 : specRunsD (s :: t :: rest2) = [s] :: specRunsD (t :: rest2) := by
              simp [specRunsD, hadj]
            rw [hstep, hA2, hruns2]
            simp [specGroupD, specRunEndD]
        · intro st la acc s2 rest3 r rs h hlast hruns
          injection h with h1 h2
          subst h1
          subst h2
          by_cases hadj : s.address + 1 = t.address
          · obtain ⟨r2, rs2, hruns2⟩ := specRunsD_cons rest2 t
            have hshape : specRunsD (s :: t :: rest2) = (s :: t :: r2) :: rs2 := by
              simp [specRunsD, hadj, hruns2]
            rw [hshape] at hruns
            simp only [List.cons.injEq] at hruns
            obtain ⟨⟨-, hr⟩, hrs⟩ := hruns
            subst hr
            subst hrs
            have hB := (ih (t :: rest2) hlen).2 st s.address (acc ++ [s])
              t rest2 r2 rs2 rfl hadj hruns2
            have hstep : groupDiscLoop (s :: t :: rest2) (some st) (some la) acc =
                groupDiscLoop (t :: rest2) (some st) (some s.address) (acc ++ [s]) := by
              simp [groupDiscLoop, hlast, hadj]
            rw [hstep, hB]
            simp [specRunEndD_cons_cons]
          · have hA2 := (ih (t :: rest2) hlen).1
            have hshape : specRunsD (s :: t :: rest2) = [s] :: specRunsD (t :: rest2) := by
              simp [specRunsD, hadj]
            rw [hshape] at hruns
            simp only [List.cons.injEq] at hruns
            obtain ⟨⟨-, hr⟩, hrs⟩ := hruns
            subst hr
            have hstep : groupDiscLoop (s :: t :: rest2) (some st) (some la) acc =
                ⟨st, s.address - st + 1, acc ++ [s]⟩ ::
                  groupDiscLoop (t :: rest2) none none [] := by
              simp [groupDiscLoop, hlast, hadj]
            rw [hstep, hA2, ← hrs]
            simp [specRunEndD]

theorem groupDiscLoop_eq_runs (l : List DSensor) :
    groupDiscLoop l none none [] = (specRunsD l).map specGroupD :=
  (groupDiscLoop_master l.length l le_rfl).1

/-- C5: for a category whose (sorted, annotated) sensors have unique
addresses and non-overlapping occupied spans, grouping emits exactly one
group per maximal contiguous run of occupied addresses, each group's
count spanning from its start address to the end of its last sensor's
occupied width; an empty category yields an empty group list.  This holds
for both the register and the discrete branch. -/
theorem grouping_maximal_runs :
    (∀ (rcfg l : List RegSensor),
      annotateList (sortByAddr (fun s => s.address) rcfg) = .ok l →
      l.Pairwise (fun a b => a.address ≠ b.address) →
      List.Chain' (fun a b => a.address + a.count ≤ b.address) l →
      groupRegisterCategory rcfg = .ok ((specRunsR l).map specGroupR)) ∧
    (∀ dcfg : List DSensor,
      (sortByAddr (fun s => s.address) dcfg).Pairwise (fun a b => a.address ≠ b.address) →
      groupDiscreteCategory dcfg =
        (specRunsD (sortByAddr (fun s => s.address) dcfg)).map specGroupD) ∧
    groupDiscreteCategory [] = [] ∧
    groupRegisterCategory [] = .ok [] := by
  refine ⟨?_, ?_, rfl, rfl⟩
  · intro rcfg l h hp hch
    simp [groupRegisterCategory, h, groupRegLoop_eq_runs]
  · intro dcfg hp
    simp [groupDiscreteCategory, groupDiscLoop_eq_runs]

/-- C5 witness: a singleton register category and a gapped two-sensor
discrete category, both satisfying the claim's hypotheses. -/
theorem grouping_maximal_runs_witness :
    groupRegisterCategory [⟨"x", 0, "int16", 1, none, 0⟩] =
      .ok ((specRunsR [⟨"x", 0, "int16", 1, none, 1⟩]).map specGroupR) ∧
    groupDiscreteCategory [⟨"a", 0⟩, ⟨"c", 3⟩] =
      (specRunsD (sortByAddr (fun s => s.address) [⟨"a", 0⟩, ⟨"c", 3⟩])).map specGroupD := by
  constructor
  · exact grouping_maximal_runs.1 [⟨"x", 0, "int16", 1, none, 0⟩]
      [⟨"x", 0, "int16", 1, none, 1⟩] rfl (by decide) (by simp)
  · exact grouping_maximal_runs.2.1 [⟨"a", 0⟩, ⟨"c", 3⟩] (by decide)

theorem specGroupR_sensors : ∀ r : List RegSensor, (specGroupR r).sensors = r := by
  intro r
  cases r <;> rfl

theorem specGroupD_sensors : ∀ r : List DSensor, (specGroupD r).sensors = r := by
  intro r
  cases r <;> rfl

theorem specRunsR_flatten : (l : List RegSensor) → (specRunsR l).flatten = l
  | [] => rfl
  | [s] => by simp [specRunsR]
  | s :: t :: rest => by
    have IH := specRunsR_flatten (t :: rest)
    by_cases hadj : s.address + s.count = t.address
    · obtain ⟨r, rs, h⟩ := specRunsR_cons rest t
      rw [h] at IH
      simp only [List.flatten_cons] at IH
      simp [specRunsR, hadj, h, List.flatten_cons, IH]
    · simp [specRunsR, hadj, List.flatten_cons, IH]

theorem specRunsD_flatten : (l : List DSensor) → (specRunsD l).flatten = l
  | [] => rfl
  | [s] => by simp [specRunsD]
  | s :: t :: rest => by
    have IH := specRunsD_flatten (t :: rest)
    by_cases hadj : s.address + 1 = t.address
    · obtain ⟨r, rs, h⟩ := specRunsD_cons rest t
      rw [h] at IH
      simp only [List.flatten_cons] at IH
      simp [specRunsD, hadj, h, List.flatten_cons, IH]
    · simp [specRunsD, hadj, List.flatten_cons, IH]

theorem mem_insertByAddr {α : Type} (addr : α → ℕ) (x y : α) :
    ∀ l : List α, y ∈ insertByAddr addr x l ↔ y = x ∨ y ∈ l := by
  intro l
  induction l with
  | nil => simp [insertByAddr]
  | cons z zs ih =>
    simp only [insertByAddr]
    split
    · simp [List.mem_cons]
    · simp only [List.mem_cons, ih]
      tauto

theorem pairwise_insertByAddr {α : Type} (addr : α → ℕ) (x : α) :
    ∀ l : List α, l.Pairwise (fun a b => addr a ≤ addr b) →
      (insertByAddr addr x l).Pairwise (fun a b => addr a ≤ addr b) := by
  intro l
  induction l with
  | nil => intro h; simp [insertByAddr]
  | cons z zs ih =>
    intro h
    rcases List.pairwise_cons.mp h with ⟨hz, hzs⟩
    simp only [insertByAddr]
    split
    next hle =>
      refine List.pairwise_cons.mpr ⟨?_, h⟩
      intro b hb
      rcases List.mem_cons.mp hb with rfl | hb2
      · exact hle
      · exact le_trans hle (hz b hb2)
    next hle =>
      have hzx : addr z ≤ addr x := le_of_not_le hle
      refine List.pairwise_cons.mpr ⟨?_, ih hzs⟩
      intro b hb
      rcases (mem_insertByAddr addr x b zs).mp hb with rfl | hb2
      · exact hzx
      · exact hz b hb2

theorem sortByAddr_pairwise {α : Type} (addr : α → ℕ) :
    ∀ l : List α, (sortByAddr addr l).Pairwise (fun a b => addr a ≤ addr b) := by
  intro l
  induction l with
  | nil => simp [sortByAddr]
  | cons x xs ih => exact pairwise_insertByAddr addr x _ ih

theorem sortByAddr_eq_self {α : Type} (addr : α → ℕ) :
    ∀ l : List α, l.Pairwise (fun a b => addr a ≤ addr b) → sortByAddr addr l = l := by
  intro l
  induction l with
  | nil => intro h; rfl
  | cons x xs ih =>
    intro h
    rcases List.pairwise_cons.mp h with ⟨hx, hxs⟩
    show insertByAddr addr x (sortByAddr addr xs) = x :: xs
    rw [ih hxs]
    cases xs with
    | nil => rfl
    | cons y ys => simp [insertByAddr, hx y (by simp)]

theorem annotateSensor_idem (s s2 : RegSensor) (h : annotateSensor s = .ok s2) :
    annotateSensor s2 = .ok s2 := by
  unfold annotateSensor at h ⊢
  split at h
  next sz hsz =>
    cases h
    simp [hsz]
  next => cases h

theorem annotateSensor_addr (s s2 : RegSensor) (h : annotateSensor s = .ok s2) :
    s2.address = s.address := by
  unfold annotateSensor at h
  split at h
  next sz hsz => cases h; rfl
  next => cases h

theorem annotateList_idem : ∀ (l0 l : List RegSensor),
    annotateList l0 = .ok l → annotateList l = .ok l := by
  intro l0
  induction l0 with
  | nil =>
    intro l h
    simp only [annotateList] at h
    cases h
    rfl
  | cons s rest ih =>
    intro l h
    simp only [annotateList] at h
    split at h
    next e he => simp at h
    next s2 hs2 =>
      split at h
      next e he => simp at h
      next rest2 hrest2 =>
        cases h
        have h1 := annotateSensor_idem s s2 hs2
        have h2 := ih rest2 hrest2
        simp [annotateList, h1, h2]

theorem annotateList_map_addr : ∀ (l0 l : List RegSensor),
    annotateList l0 = .ok l →
    l.map (fun s => s.address) = l0.map (fun s => s.address) := by
  intro l0
  induction l0 with
  | nil =>
    intro l h
    simp only [annotateList] at h
    cases h
    rfl
  | cons s rest ih =>
    intro l h
    simp only [annotateList] at h
    split at h
    next e he => simp at h
    next s2 hs2 =>
      split at h
      next e he => simp at h
      next rest2 hrest2 =>
        cases h
        simp [annotateSensor_addr s s2 hs2, ih rest2 hrest2]

theorem groupRegisterCategory_flatten (cfg : List RegSensor) (gs : List RGroup)
    (h : groupRegisterCategory cfg = .ok gs) :
    groupRegisterCategory ((gs.map (fun g => g.sensors)).flatten) = .ok gs := by
  unfold groupRegisterCategory at h
  split at h
  next e he => simp at h
  next l hl =>
    cases h
    have hflat : (((groupRegLoop l none none []).map (fun g => g.sensors)).flatten) = l := by
      rw [groupRegLoop_eq_runs]
      simp [List.map_map, Function.comp_def, specGroupR_sensors, specRunsR_flatten]
    rw [hflat]
    have hsorted0 := sortByAddr_pairwise (fun s : RegSensor => s.address) cfg
    have hmap := annotateList_map_addr _ _ hl
    have hsorted : l.Pairwise (fun a b : RegSensor => a.address ≤ b.address) := by
      have h1 : ((sortByAddr (fun s : RegSensor => s.address) cfg).map
          (fun s => s.address)).Pairwise (fun a b => a ≤ b) :=
        List.pairwise_map.mpr hsorted0
      rw [← hmap] at h1
      exact List.pairwise_map.mp h1
    unfold groupRegisterCategory
    rw [sortByAddr_eq_self _ l hsorted, annotateList_idem _ _ hl]

theorem groupDiscreteCategory_flatten (cfg : List DSensor) :
    groupDiscreteCategory (((groupDiscreteCategory cfg).map (fun g => g.sensors)).flatten) =
      groupDiscreteCategory cfg := by
  have hflat : (((groupDiscreteCategory cfg).map (fun g => g.sensors)).flatten) =
      sortByAddr (fun s : DSensor => s.address) cfg := by
    unfold groupDiscreteCategory
    rw [groupDiscLoop_eq_runs]
    simp [List.map_map, Function.comp_def, specGroupD_sensors, specRunsD_flatten]
  show groupDiscLoop (sortByAddr _ (((groupDiscreteCategory cfg).map (fun g => g.sensors)).flatten))
      none none [] = groupDiscreteCategory cfg
  rw [hflat, sortByAddr_eq_self _ _ (sortByAddr_pairwise _ _)]
  rfl

/-- C9: the reader state (its stored grouped definition and byte-order
flag) is unchanged by every sequence of `read_discretes` /
`read_registers` / `read_all_values` calls -- the method bodies never
assign to the instance or to any dictionary reachable from the grouped
definition -- and grouping is idempotent: re-grouping the sensors held in
the produced groups yields exactly the same groups, for register and
discrete categories alike. -/
theorem reader_state_immutable_and_grouping_idempotent :
    (∀ (sem : MathSem) (c : ClientModel) (self : ModbusReaderState) (calls : List ReadCall),
      runCalls sem c self calls = self) ∧
    (∀ (cfg : List RegSensor) (gs : List RGroup),
      groupRegisterCategory cfg = .ok gs →
      groupRegisterCategory ((gs.map (fun g => g.sensors)).flatten) = .ok gs) ∧
    (∀ cfg : List DSensor,
      groupDiscreteCategory (((groupDiscreteCategory cfg).map (fun g => g.sensors)).flatten) =
        groupDiscreteCategory cfg) := by
  refine ⟨?_, fun cfg gs h => groupRegisterCategory_flatten cfg gs h,
    fun cfg => groupDiscreteCategory_flatten cfg⟩
  intro sem c self calls
  induction calls with
  | nil => rfl
  | cons op ops ih =>
    show runCalls sem c (stepState sem c self op) ops = self
    have hstep : stepState sem c self op = self := by
      cases op <;> rfl
    rw [hstep]
    exact ih

/-- C9 witness: a concrete call sequence leaves a concrete reader state
unchanged, and a concrete register category regroups to itself. -/
theorem reader_state_witness :
    runCalls mathSem0
      ⟨fun _ _ => .noAttr, fun _ _ => .noAttr, fun _ _ => .noAttr, fun _ _ => .noAttr⟩
      ⟨⟨[], [], [], []⟩, false⟩ [.allValues, .discretes "input", .registers "output"] =
      ⟨⟨[], [], [], []⟩, false⟩ ∧
    groupRegisterCategory
      (([RGroup.mk 0 1 [⟨"x", 0, "int16", 1, none, 1⟩]].map (fun g => g.sensors)).flatten) =
      .ok [RGroup.mk 0 1 [⟨"x", 0, "int16", 1, none, 1⟩]] := by
  exact ⟨reader_state_immutable_and_grouping_idempotent.1 mathSem0 _ _ _,
    reader_state_immutable_and_grouping_idempotent.2.1 [⟨"x", 0, "int16", 1, none, 0⟩] _ rfl⟩
